import Mathlib

/-!
Shallow embedding of the rigid-body physics core (Vec2, Body, World) of the
retro-game repository. Numbers are modelled by the real numbers; the
Euclidean length uses Real.sqrt, mirroring Math.hypot. In-place mutation of
body objects is modelled by state passing: each operation returns the
updated record. The event emitter attached to the World is modelled as a
synchronous handler that receives the collision payload and returns the
list of bodies it pushes into the World during the notification.
-/

noncomputable section
open scoped Classical

/-- Two-dimensional vector, class Vec2 of the source. -/
structure Vec2 where
  x : ℝ
  y : ℝ

namespace Vec2

@[ext] theorem ext2 {a b : Vec2} (hx : a.x = b.x) (hy : a.y = b.y) : a = b := by
  cases a; cases b; simp_all

/-- v.add(w) -/
def add (a b : Vec2) : Vec2 := ⟨a.x + b.x, a.y + b.y⟩

/-- v.sub(w), also the static Vec2.sub(a, b) -/
def sub (a b : Vec2) : Vec2 := ⟨a.x - b.x, a.y - b.y⟩

/-- v.scale(s), also the static Vec2.scale(v, s) -/
def scale (a : Vec2) (s : ℝ) : Vec2 := ⟨a.x * s, a.y * s⟩

/-- v.dot(w) -/
def dot (a b : Vec2) : ℝ := a.x * b.x + a.y * b.y

/-- v.length(): Math.hypot(x, y) -/
def length (a : Vec2) : ℝ := Real.sqrt (a.x ^ 2 + a.y ^ 2)

theorem length_nonneg (a : Vec2) : 0 ≤ a.length := Real.sqrt_nonneg _

theorem length_eq_zero_iff (a : Vec2) : a.length = 0 ↔ a.x = 0 ∧ a.y = 0 := by
  unfold length
  constructor
  · intro h
    have hle : a.x ^ 2 + a.y ^ 2 ≤ 0 := Real.sqrt_eq_zero'.mp h
    have hx : a.x ^ 2 = 0 := by nlinarith [sq_nonneg a.x, sq_nonneg a.y]
    have hy : a.y ^ 2 = 0 := by nlinarith [sq_nonneg a.x, sq_nonneg a.y]
    exact ⟨sq_eq_zero_iff.mp hx, sq_eq_zero_iff.mp hy⟩
  · rintro ⟨hx, hy⟩
    simp [hx, hy]

end Vec2

/-- Collision shape: circles are the only shape the engine resolves. -/
inductive Shape where
  | circle (radius : ℝ)
  | other

/-- Rigid body, class Body of the source. Object identity (used by
indexOf in removeBody) is modelled by the id field. -/
structure Body where
  id : ℕ
  position : Vec2
  velocity : Vec2
  acceleration : Vec2
  angle : ℝ
  angularVelocity : ℝ
  mass : ℝ
  invMass : ℝ
  restitution : ℝ
  friction : ℝ
  shape : Shape
  static : Bool

instance : Inhabited Body :=
  ⟨⟨0, ⟨0, 0⟩, ⟨0, 0⟩, ⟨0, 0⟩, 0, 0, 1, 1, 0.9, 0.1, Shape.circle 1, false⟩⟩

namespace Body

@[ext] theorem extAll {a b : Body}
    (h1 : a.id = b.id) (h2 : a.position = b.position) (h3 : a.velocity = b.velocity)
    (h4 : a.acceleration = b.acceleration) (h5 : a.angle = b.angle)
    (h6 : a.angularVelocity = b.angularVelocity) (h7 : a.mass = b.mass)
    (h8 : a.invMass = b.invMass) (h9 : a.restitution = b.restitution)
    (h10 : a.friction = b.friction) (h11 : a.shape = b.shape)
    (h12 : a.static = b.static) : a = b := by
  cases a; cases b; simp_all

/-- applyForce(force): accumulate force scaled by the inverse mass into
the acceleration; no-op for static bodies. -/
def applyForce (b : Body) (force : Vec2) : Body :=
  if b.static then b
  else { b with acceleration := b.acceleration.add (force.scale b.invMass) }

/-- integrate(dt): semi-implicit Euler; velocity first, then position with
the new velocity, then the acceleration accumulator is cleared. No-op for
static bodies. -/
def integrate (b : Body) (dt : ℝ) : Body :=
  if b.static then b
  else
    let v := b.velocity.add (b.acceleration.scale dt)
    { b with
      velocity := v
      position := b.position.add (v.scale dt)
      acceleration := ⟨0, 0⟩ }

end Body

/-- Payload of the Collision event dispatched by the World (the bodies
themselves travel alongside it in the detail object). -/
structure CollisionEvent where
  normal : Vec2
  penetration : ℝ

/-- A collision subscriber: receives the post-resolution bodies and the
event payload, and returns the bodies it appends to the World (via
addBody) during the synchronous notification. -/
def Handler : Type := Body × Body × CollisionEvent → List Body

/-- World.removeBody(body): indexOf followed by splice(i, 1) — remove the
first body whose identity matches the handle; no-op when absent. -/
def World.removeBody (bid : ℕ) (bodies : List Body) : List Body :=
  bodies.eraseP (fun b => b.id == bid)

/-- World._resolveCollision(A, B, normal, penetration): positional
correction (factor 0.2, distributed by inverse mass) followed by the
restitution impulse, skipped when the bodies already separate along the
normal. Static bodies are never moved. Returns the updated pair. -/
def World.resolveCollision (A B : Body) (normal : Vec2) (penetration : ℝ) :
    Body × Body :=
  let invMassSum := (if A.static then 0 else A.invMass) +
    (if B.static then 0 else B.invMass)
  if invMassSum = 0 then (A, B)
  else
    let percent : ℝ := 0.2
    let correction := normal.scale (percent * (penetration / invMassSum))
    let A1 := if A.static then A
      else { A with position := A.position.sub (correction.scale A.invMass) }
    let B1 := if B.static then B
      else { B with position := B.position.add (correction.scale B.invMass) }
    let relVel := Vec2.sub B1.velocity A1.velocity
    let velAlongNormal := relVel.dot normal
    if velAlongNormal > 0 then (A1, B1)
    else
      let e := min A1.restitution B1.restitution
      let j := -(1 + e) * velAlongNormal / invMassSum
      let impulse := normal.scale j
      let A2 := if A1.static then A1
        else { A1 with velocity := A1.velocity.sub (impulse.scale A1.invMass) }
      let B2 := if B1.static then B1
        else { B1 with velocity := B1.velocity.add (impulse.scale B1.invMass) }
      (A2, B2)

/-- World._collide(A, B): skip pairs of static bodies, test circle against
circle, register a collision when the distance is zero or below the radius
sum, resolve it and return the updated bodies with the event payload;
none when no collision is registered. -/
def World.collide (A B : Body) : Option (Body × Body × CollisionEvent) :=
  if A.static ∧ B.static then none
  else
    match A.shape, B.shape with
    | Shape.circle rA, Shape.circle rB =>
      let diff := Vec2.sub B.position A.position
      let dist := diff.length
      let r := rA + rB
      if dist = 0 ∨ dist < r then
        let normal := if dist = 0 then (⟨1, 0⟩ : Vec2) else diff.scale (1 / dist)
        let penetration := r - dist
        let R := World.resolveCollision A B normal penetration
        some (R.1, R.2, ⟨normal, penetration⟩)
      else none
    | _, _ => none

/-- Ascending-index pairs (i, j) with i < j < len, outer loop over the
lower index, inner loop over the higher index. -/
def World.pairList (len : ℕ) : List (ℕ × ℕ) :=
  (List.range len).bind fun i => ((List.range len).drop (i + 1)).map fun j => (i, j)

/-- One inner-loop iteration of the collision phase: read the bodies at
the cached indices, collide them, write the results back, and append
whatever bodies the notification handler pushes. -/
def World.collideAt (h : Handler) (q : ℕ × ℕ) (bodies : List Body) : List Body :=
  match World.collide (bodies.getD q.1 default) (bodies.getD q.2 default) with
  | none => bodies
  | some r => ((bodies.set q.1 r.1).set q.2 r.2.1) ++ h r

/-- The handler of a world with no collision subscribers. -/
def World.noHandler : Handler := fun _ => []

/-- World.step(dt): cache the body count at entry, integrate each of the
first len bodies, then run the all-pairs collision phase over the cached
range in ascending-index order. -/
def World.step (h : Handler) (dt : ℝ) (bodies : List Body) : List Body :=
  let len := bodies.length
  let b1 := bodies.map (fun b => b.integrate dt)
  (World.pairList len).foldl (fun bs q => World.collideAt h q bs) b1

/-- The bodies appended by the notification handler over a run of the
collision phase, in order of appearance; the first argument tracks the
prefix of cached bodies as it evolves. -/
def World.stepAppends (h : Handler) : List (ℕ × ℕ) → List Body → List Body
  | [], _ => []
  | q :: L, bs =>
    match World.collide (bs.getD q.1 default) (bs.getD q.2 default) with
    | none => World.stepAppends h L bs
    | some r => h r ++ World.stepAppends h L ((bs.set q.1 r.1).set q.2 r.2.1)

/-! Theorems. -/

/-- C1: for every pair of circle bodies examined by the World, not both
static, a collision is registered exactly when the center distance is
below the radius sum or equals zero; the registered normal is the
difference of positions scaled by the reciprocal distance, with fallback
(1, 0) at distance zero, and the penetration depth is the radius sum
minus the distance. -/
theorem collide_registers_iff (A B : Body) (rA rB : ℝ)
    (hA : A.shape = Shape.circle rA) (hB : B.shape = Shape.circle rB)
    (hs : ¬(A.static ∧ B.static)) :
    ((World.collide A B).isSome ↔
      ((Vec2.sub B.position A.position).length < rA + rB ∨
        (Vec2.sub B.position A.position).length = 0)) ∧
    (∀ A2 B2 ev, World.collide A B = some (A2, B2, ev) →
      ev.normal = (if (Vec2.sub B.position A.position).length = 0
          then (⟨1, 0⟩ : Vec2)
          else (Vec2.sub B.position A.position).scale
            (1 / (Vec2.sub B.position A.position).length)) ∧
      ev.penetration = rA + rB - (Vec2.sub B.position A.position).length) := by
  unfold World.collide
  rw [if_neg hs, hA, hB]
  dsimp only
  by_cases hcond : (Vec2.sub B.position A.position).length = 0 ∨
      (Vec2.sub B.position A.position).length < rA + rB
  · rw [if_pos hcond]
    constructor
    · simp only [Option.isSome_some, true_iff]
      exact hcond.elim Or.inr Or.inl
    · intro A2 B2 ev heq
      rw [Option.some_inj] at heq
      have h3 := congrArg (fun t : Body × Body × CollisionEvent => t.2.2) heq
      dsimp only at h3
      rw [← h3]
      exact ⟨rfl, rfl⟩
  · rw [if_neg hcond]
    constructor
    · simp only [Option.isSome_none, Bool.false_eq_true, false_iff]
      intro hor
      exact hcond (hor.elim Or.inr Or.inl)
    · intro A2 B2 ev heq
      exact absurd heq (by simp)

/-- C2: integrate performs semi-implicit Euler on every non-static body
(velocity first, position with the new velocity, acceleration cleared),
and a body with zero acceleration keeps its velocity and moves by
velocity times dt on each of any number of successive steps. -/
theorem integrate_semi_implicit_euler (b : Body) (dt : ℝ) (hb : b.static = false) :
    (b.integrate dt =
      { b with
        velocity := b.velocity.add (b.acceleration.scale dt)
        position := b.position.add
          ((b.velocity.add (b.acceleration.scale dt)).scale dt)
        acceleration := (⟨0, 0⟩ : Vec2) }) ∧
    (b.acceleration = (⟨0, 0⟩ : Vec2) → ∀ n : ℕ,
      (fun c => Body.integrate c dt)^[n] b =
        { b with position := ⟨b.position.x + n * (b.velocity.x * dt),
                              b.position.y + n * (b.velocity.y * dt)⟩ }) := by
  constructor
  · unfold Body.integrate
    rw [if_neg (by simp [hb])]
  · intro ha n
    induction n with
    | zero =>
      refine Eq.trans (Function.iterate_zero_apply _ b) ?_
      ext <;> first | rfl | simp
    | succ n ih =>
      rw [Function.iterate_succ_apply', ih]
      unfold Body.integrate
      rw [if_neg (by simp [hb])]
      ext <;> first
        | rfl
        | (simp [Vec2.add, Vec2.scale, ha]; push_cast; ring)
        | simp [Vec2.add, Vec2.scale, ha]

/-- C3: a static body is left entirely unchanged, in particular its
position and velocity, by applyForce with any force, by integrate with
any dt, and by collision resolution on either side of the pair. -/
theorem static_body_unchanged (b : Body) (hb : b.static = true) :
    (∀ f : Vec2, b.applyForce f = b) ∧
    (∀ dt : ℝ, b.integrate dt = b) ∧
    (∀ (B : Body) (normal : Vec2) (pen : ℝ),
      (World.resolveCollision b B normal pen).1 = b) ∧
    (∀ (A : Body) (normal : Vec2) (pen : ℝ),
      (World.resolveCollision A b normal pen).2 = b) := by
  refine ⟨fun f => ?_, fun dt => ?_, fun B n p => ?_, fun A n p => ?_⟩
  · unfold Body.applyForce
    rw [if_pos hb]
  · unfold Body.integrate
    rw [if_pos hb]
  · unfold World.resolveCollision
    simp only [hb, eq_self_iff_true, if_true]
    split_ifs <;> rfl
  · unfold World.resolveCollision
    simp only [hb, eq_self_iff_true, if_true]
    split_ifs <;> rfl

/-- C4: for a pair with positive combined inverse mass, a strictly
separating relative velocity along the normal skips the impulse, leaving
both velocities unchanged while the positional correction has already
been applied; otherwise the impulse with the minimum restitution is
applied to the velocity of each non-static body. -/
theorem impulse_resolution_spec (A B : Body) (normal : Vec2) (pen : ℝ)
    (hsum : 0 < (if A.static then 0 else A.invMass) +
      (if B.static then 0 else B.invMass)) :
    (0 < (Vec2.sub B.velocity A.velocity).dot normal →
      (World.resolveCollision A B normal pen).1.velocity = A.velocity ∧
      (World.resolveCollision A B normal pen).2.velocity = B.velocity ∧
      (World.resolveCollision A B normal pen).1.position =
        (if A.static then A.position else A.position.sub
          ((normal.scale (0.2 * (pen / ((if A.static then 0 else A.invMass) +
            (if B.static then 0 else B.invMass))))).scale A.invMass)) ∧
      (World.resolveCollision A B normal pen).2.position =
        (if B.static then B.position else B.position.add
          ((normal.scale (0.2 * (pen / ((if A.static then 0 else A.invMass) +
            (if B.static then 0 else B.invMass))))).scale B.invMass))) ∧
    (¬ 0 < (Vec2.sub B.velocity A.velocity).dot normal →
      (World.resolveCollision A B normal pen).1.velocity =
        (if A.static then A.velocity else A.velocity.sub
          ((normal.scale (-(1 + min A.restitution B.restitution) *
            ((Vec2.sub B.velocity A.velocity).dot normal) /
            ((if A.static then 0 else A.invMass) +
              (if B.static then 0 else B.invMass)))).scale A.invMass)) ∧
      (World.resolveCollision A B normal pen).2.velocity =
        (if B.static then B.velocity else B.velocity.add
          ((normal.scale (-(1 + min A.restitution B.restitution) *
            ((Vec2.sub B.velocity A.velocity).dot normal) /
            ((if A.static then 0 else A.invMass) +
              (if B.static then 0 else B.invMass)))).scale B.invMass))) := by
  have hne := hsum.ne'
  unfold World.resolveCollision
  rw [if_neg hne]
  dsimp only
  simp only [apply_ite Body.velocity, apply_ite Body.restitution,
    apply_ite Body.invMass, apply_ite Body.static, apply_ite Body.position,
    apply_ite Prod.fst, apply_ite Prod.snd, ite_self]
  refine ⟨fun hvel => ?_, fun hvel => ?_⟩ <;>
    [simp [if_pos hvel]; simp [if_neg hvel]]

/-- Momentum bookkeeping for an impulse applied with opposite signs and
scaled by each inverse mass: the mass-weighted sum of velocities is
preserved when each inverse mass is the reciprocal of the mass. -/
theorem impulse_preserves_weighted_sum (vA vB n : Vec2) (k mA mB iA iB : ℝ)
    (hmA : mA * iA = 1) (hmB : mB * iB = 1) :
    Vec2.add ((vA.sub ((n.scale k).scale iA)).scale mA)
        ((vB.add ((n.scale k).scale iB)).scale mB) =
      Vec2.add (vA.scale mA) (vB.scale mB) := by
  ext <;> simp only [Vec2.add, Vec2.sub, Vec2.scale] <;>
    [linear_combination (n.x * k) * hmB - (n.x * k) * hmA;
     linear_combination (n.y * k) * hmB - (n.y * k) * hmA]

/-- C5: when neither body is static and each inverse mass is the
reciprocal of its mass (as established by the Body constructor),
collision resolution preserves the mass-weighted total momentum. -/
theorem momentum_conserved (A B : Body) (normal : Vec2) (pen : ℝ)
    (hA : A.static = false) (hB : B.static = false)
    (hmA : A.mass * A.invMass = 1) (hmB : B.mass * B.invMass = 1) :
    Vec2.add ((World.resolveCollision A B normal pen).1.velocity.scale A.mass)
        ((World.resolveCollision A B normal pen).2.velocity.scale B.mass) =
      Vec2.add (A.velocity.scale A.mass) (B.velocity.scale B.mass) := by
  unfold World.resolveCollision
  simp only [hA, hB, Bool.false_eq_true, if_false]
  split_ifs with h1 h2
  · rfl
  · rfl
  · exact impulse_preserves_weighted_sum A.velocity B.velocity normal _
      A.mass B.mass A.invMass B.invMass hmA hmB

/-- C8: removing a handle that no body in the collection carries is a
no-op (so removing an already-removed handle does not raise and changes
nothing), and when the handle occurs at most once, as holds for
facade-created bodies, removing it twice equals removing it once. -/
theorem removeBody_idempotent (bid : ℕ) (bodies : List Body) :
    ((∀ b ∈ bodies, b.id ≠ bid) → World.removeBody bid bodies = bodies) ∧
    (bodies.countP (fun b => b.id == bid) ≤ 1 →
      World.removeBody bid (World.removeBody bid bodies) =
        World.removeBody bid bodies) := by
  constructor
  · intro h
    exact List.eraseP_of_forall_not (fun b hb => by simpa using h b hb)
  · unfold World.removeBody
    induction bodies with
    | nil => intro _; rfl
    | cons a l ih =>
      intro hc
      by_cases ha : a.id = bid
      · rw [List.eraseP_cons_of_pos (by simpa using ha)]
        rw [List.countP_cons_of_pos _ _ (by simpa using ha)] at hc
        have h0 : l.countP (fun b => b.id == bid) = 0 := by omega
        exact List.eraseP_of_forall_not (List.countP_eq_zero.mp h0)
      · rw [List.eraseP_cons_of_neg (by simpa using ha)]
        rw [List.eraseP_cons_of_neg (by simpa using ha)]
        rw [List.countP_cons_of_neg _ _ (by simpa using ha)] at hc
        rw [ih hc]

/-- helper constructor for concrete circle bodies used in witnesses. -/
def mkCircleBody (n : ℕ) (px py vx vy m im rest rad : ℝ) (s : Bool) : Body :=
  ⟨n, ⟨px, py⟩, ⟨vx, vy⟩, ⟨0, 0⟩, 0, 0, m, im, rest, 0.1, Shape.circle rad, s⟩

/-- concrete body for the C8 witness. -/
def bodyC8 : Body := mkCircleBody 3 0 0 0 0 1 1 0.9 1 false

theorem removeBody_idempotent_witness :
    ((∀ b ∈ [bodyC8], b.id ≠ 7) ∧ World.removeBody 7 [bodyC8] = [bodyC8]) ∧
    (([bodyC8].countP (fun b => b.id == 3) ≤ 1) ∧
      World.removeBody 3 (World.removeBody 3 [bodyC8]) =
        World.removeBody 3 [bodyC8]) := by
  constructor
  · have h : ∀ b ∈ [bodyC8], b.id ≠ 7 := by simp [bodyC8, mkCircleBody]
    exact ⟨h, (removeBody_idempotent 7 [bodyC8]).1 h⟩
  · have h : [bodyC8].countP (fun b => b.id == 3) ≤ 1 := by
      simp [bodyC8, mkCircleBody]
    exact ⟨h, (removeBody_idempotent 3 [bodyC8]).2 h⟩

/-- concrete body for the C9 counterexample. -/
def bodyC9 : Body := mkCircleBody 0 0 0 0 0 1 1 0.9 1 false

/-- C9 counterexample: removal takes effect immediately, not at the next
step boundary housekeeping: right after removeBody returns, with no step
having run, the collection no longer holds the removed body. -/
theorem removeBody_not_deferred_counterexample :
    World.removeBody 0 [bodyC9] ≠ [bodyC9] := by
  unfold World.removeBody
  rw [List.eraseP_cons_of_pos (by simp [bodyC9, mkCircleBody])]
  simp

/-- C9 amended: removeBody splices the first body carrying the handle out
of the live collection at call time; there is no pending-removal list and
no step-boundary housekeeping. -/
theorem removeBody_immediate (bid : ℕ) (l1 l2 : List Body) (b : Body)
    (h1 : ∀ a ∈ l1, a.id ≠ bid) (h2 : b.id = bid) :
    World.removeBody bid (l1 ++ b :: l2) = l1 ++ l2 := by
  unfold World.removeBody
  revert h1
  induction l1 with
  | nil =>
    intro _
    simp only [List.nil_append]
    exact List.eraseP_cons_of_pos (by simpa using h2)
  | cons a t ih =>
    intro h1
    simp only [List.cons_append]
    rw [List.eraseP_cons_of_neg
      (by simpa using h1 a (List.mem_cons_self a t))]
    rw [ih (fun x hx => h1 x (List.mem_cons_of_mem a hx))]

/-- concrete body for the C9 amended-claim witness. -/
def bodyC9w : Body := mkCircleBody 5 0 0 0 0 1 1 0.9 1 false

theorem removeBody_immediate_witness :
    (∀ a ∈ ([] : List Body), a.id ≠ 5) ∧ bodyC9w.id = 5 ∧
      World.removeBody 5 ([] ++ bodyC9w :: []) = [] ++ [] := by
  exact ⟨by simp, rfl, removeBody_immediate 5 [] [] bodyC9w (by simp) rfl⟩

/-- concrete bodies for the C1 witness. -/
def bodyC1A : Body := mkCircleBody 10 0 0 0 0 1 1 0.9 1 false

/-- second concrete body for the C1 witness. -/
def bodyC1B : Body := mkCircleBody 11 3 0 0 0 1 1 0.9 1 false

theorem collide_registers_iff_witness :
    bodyC1A.shape = Shape.circle 1 ∧ bodyC1B.shape = Shape.circle 1 ∧
    ¬(bodyC1A.static ∧ bodyC1B.static) ∧
    (((World.collide bodyC1A bodyC1B).isSome ↔
      ((Vec2.sub bodyC1B.position bodyC1A.position).length < 1 + 1 ∨
        (Vec2.sub bodyC1B.position bodyC1A.position).length = 0)) ∧
    (∀ A2 B2 ev, World.collide bodyC1A bodyC1B = some (A2, B2, ev) →
      ev.normal = (if (Vec2.sub bodyC1B.position bodyC1A.position).length = 0
          then (⟨1, 0⟩ : Vec2)
          else (Vec2.sub bodyC1B.position bodyC1A.position).scale
            (1 / (Vec2.sub bodyC1B.position bodyC1A.position).length)) ∧
      ev.penetration =
        1 + 1 - (Vec2.sub bodyC1B.position bodyC1A.position).length)) := by
  refine ⟨rfl, rfl, ?_, ?_⟩
  · simp [bodyC1A, bodyC1B, mkCircleBody]
  · exact collide_registers_iff bodyC1A bodyC1B 1 1 rfl rfl
      (by simp [bodyC1A, bodyC1B, mkCircleBody])

/-- concrete body for the C2 witness. -/
def bodyC2 : Body := mkCircleBody 12 3 4 1 2 1 1 0.9 1 false

theorem integrate_semi_implicit_euler_witness :
    bodyC2.static = false ∧
    (bodyC2.integrate 1 =
      { bodyC2 with
        velocity := bodyC2.velocity.add (bodyC2.acceleration.scale 1)
        position := bodyC2.position.add
          ((bodyC2.velocity.add (bodyC2.acceleration.scale 1)).scale 1)
        acceleration := (⟨0, 0⟩ : Vec2) }) ∧
    bodyC2.acceleration = (⟨0, 0⟩ : Vec2) ∧
    ((fun c => Body.integrate c 1)^[2] bodyC2 =
      { bodyC2 with
        position := ⟨bodyC2.position.x + ((2 : ℕ) : ℝ) * (bodyC2.velocity.x * 1),
                     bodyC2.position.y + ((2 : ℕ) : ℝ) * (bodyC2.velocity.y * 1)⟩ }) :=
  ⟨rfl, (integrate_semi_implicit_euler bodyC2 1 rfl).1, rfl,
    (integrate_semi_implicit_euler bodyC2 1 rfl).2 rfl 2⟩

/-- concrete static body for the C3 witness. -/
def bodyC3 : Body := mkCircleBody 13 0 0 0 0 1 1 0.9 1 true

/-- concrete dynamic partner body for the C3 witness. -/
def bodyC3p : Body := mkCircleBody 14 1 0 0 0 1 1 0.9 1 false

theorem static_body_unchanged_witness :
    bodyC3.static = true ∧
    bodyC3.applyForce ⟨1, 2⟩ = bodyC3 ∧
    bodyC3.integrate 1 = bodyC3 ∧
    (World.resolveCollision bodyC3 bodyC3p ⟨1, 0⟩ 1).1 = bodyC3 ∧
    (World.resolveCollision bodyC3p bodyC3 ⟨1, 0⟩ 1).2 = bodyC3 :=
  ⟨rfl, (static_body_unchanged bodyC3 rfl).1 ⟨1, 2⟩,
    (static_body_unchanged bodyC3 rfl).2.1 1,
    (static_body_unchanged bodyC3 rfl).2.2.1 bodyC3p ⟨1, 0⟩ 1,
    (static_body_unchanged bodyC3 rfl).2.2.2 bodyC3p ⟨1, 0⟩ 1⟩

/-- concrete bodies for the C4 witness. -/
def bodyC4A : Body := mkCircleBody 15 0 0 1 0 1 1 0.9 1 false

/-- second concrete body for the C4 witness. -/
def bodyC4B : Body := mkCircleBody 16 1 0 0 0 1 1 0.9 1 false

theorem impulse_resolution_spec_witness :
    (0 < (if bodyC4A.static then 0 else bodyC4A.invMass) +
      (if bodyC4B.static then 0 else bodyC4B.invMass)) ∧
    ((0 < (Vec2.sub bodyC4B.velocity bodyC4A.velocity).dot ⟨1, 0⟩ →
      (World.resolveCollision bodyC4A bodyC4B ⟨1, 0⟩ 1).1.velocity =
        bodyC4A.velocity ∧
      (World.resolveCollision bodyC4A bodyC4B ⟨1, 0⟩ 1).2.velocity =
        bodyC4B.velocity ∧
      (World.resolveCollision bodyC4A bodyC4B ⟨1, 0⟩ 1).1.position =
        (if bodyC4A.static then bodyC4A.position else bodyC4A.position.sub
          (((⟨1, 0⟩ : Vec2).scale (0.2 * ((1 : ℝ) /
            ((if bodyC4A.static then 0 else bodyC4A.invMass) +
              (if bodyC4B.static then 0 else bodyC4B.invMass))))).scale
            bodyC4A.invMass)) ∧
      (World.resolveCollision bodyC4A bodyC4B ⟨1, 0⟩ 1).2.position =
        (if bodyC4B.static then bodyC4B.position else bodyC4B.position.add
          (((⟨1, 0⟩ : Vec2).scale (0.2 * ((1 : ℝ) /
            ((if bodyC4A.static then 0 else bodyC4A.invMass) +
              (if bodyC4B.static then 0 else bodyC4B.invMass))))).scale
            bodyC4B.invMass))) ∧
    (¬ 0 < (Vec2.sub bodyC4B.velocity bodyC4A.velocity).dot ⟨1, 0⟩ →
      (World.resolveCollision bodyC4A bodyC4B ⟨1, 0⟩ 1).1.velocity =
        (if bodyC4A.static then bodyC4A.velocity else bodyC4A.velocity.sub
          (((⟨1, 0⟩ : Vec2).scale
            (-(1 + min bodyC4A.restitution bodyC4B.restitution) *
            ((Vec2.sub bodyC4B.velocity bodyC4A.velocity).dot ⟨1, 0⟩) /
            ((if bodyC4A.static then 0 else bodyC4A.invMass) +
              (if bodyC4B.static then 0 else bodyC4B.invMass)))).scale
            bodyC4A.invMass)) ∧
      (World.resolveCollision bodyC4A bodyC4B ⟨1, 0⟩ 1).2.velocity =
        (if bodyC4B.static then bodyC4B.velocity else bodyC4B.velocity.add
          (((⟨1, 0⟩ : Vec2).scale
            (-(1 + min bodyC4A.restitution bodyC4B.restitution) *
            ((Vec2.sub bodyC4B.velocity bodyC4A.velocity).dot ⟨1, 0⟩) /
            ((if bodyC4A.static then 0 else bodyC4A.invMass) +
              (if bodyC4B.static then 0 else bodyC4B.invMass)))).scale
            bodyC4B.invMass)))) := by
  have hsum : 0 < (if bodyC4A.static then 0 else bodyC4A.invMass) +
      (if bodyC4B.static then 0 else bodyC4B.invMass) := by
    norm_num [bodyC4A, bodyC4B, mkCircleBody]
  exact ⟨hsum, impulse_resolution_spec bodyC4A bodyC4B ⟨1, 0⟩ 1 hsum⟩

/-- concrete bodies for the C5 witness. -/
def bodyC5A : Body := mkCircleBody 17 0 0 1 0 2 0.5 0.9 1 false

/-- second concrete body for the C5 witness. -/
def bodyC5B : Body := mkCircleBody 18 1 0 0 0 2 0.5 0.9 1 false

theorem momentum_conserved_witness :
    bodyC5A.static = false ∧ bodyC5B.static = false ∧
    bodyC5A.mass * bodyC5A.invMass = 1 ∧ bodyC5B.mass * bodyC5B.invMass = 1 ∧
    Vec2.add
        ((World.resolveCollision bodyC5A bodyC5B ⟨1, 0⟩ 1).1.velocity.scale
          bodyC5A.mass)
        ((World.resolveCollision bodyC5A bodyC5B ⟨1, 0⟩ 1).2.velocity.scale
          bodyC5B.mass) =
      Vec2.add (bodyC5A.velocity.scale bodyC5A.mass)
        (bodyC5B.velocity.scale bodyC5B.mass) := by
  have hmA : bodyC5A.mass * bodyC5A.invMass = 1 := by
    norm_num [bodyC5A, mkCircleBody]
  have hmB : bodyC5B.mass * bodyC5B.invMass = 1 := by
    norm_num [bodyC5B, mkCircleBody]
  exact ⟨rfl, rfl, hmA, hmB,
    momentum_conserved bodyC5A bodyC5B ⟨1, 0⟩ 1 rfl rfl hmA hmB⟩

/-- The centers difference after resolveCollision: unchanged when the
combined inverse mass vanishes, otherwise pushed along the normal by 0.2
times the penetration (the inverse-mass distribution cancels against the
correction denominator). -/
theorem resolveCollision_diff (A B : Body) (n : Vec2) (p : ℝ) :
    (World.resolveCollision A B n p).2.position.sub
        (World.resolveCollision A B n p).1.position =
      B.position.sub A.position ∨
    (World.resolveCollision A B n p).2.position.sub
        (World.resolveCollision A B n p).1.position =
      (B.position.sub A.position).add (n.scale (0.2 * p)) := by
  unfold World.resolveCollision
  dsimp only
  by_cases h0 : (if A.static then 0 else A.invMass) +
      (if B.static then 0 else B.invMass) = (0 : ℝ)
  · rw [if_pos h0]
    left
    rfl
  · rw [if_neg h0]
    right
    cases hA : A.static <;> cases hB : B.static <;>
      simp only [hA, hB, Bool.false_eq_true, if_false, if_true, add_zero,
        zero_add] at h0 ⊢ <;>
      [skip; skip; skip; exact absurd (by norm_num) h0] <;>
      simp only [apply_ite Prod.fst, apply_ite Prod.snd,
        apply_ite Body.position, ite_self] <;>
      (ext <;> simp only [Vec2.add, Vec2.sub, Vec2.scale] <;>
        field_simp <;> ring)

theorem Vec2.length_scale (d : Vec2) (k : ℝ) :
    (d.scale k).length = |k| * d.length := by
  unfold Vec2.length Vec2.scale
  dsimp only
  rw [show (d.x * k) ^ 2 + (d.y * k) ^ 2 = k ^ 2 * (d.x ^ 2 + d.y ^ 2) by ring]
  rw [Real.sqrt_mul (sq_nonneg k), Real.sqrt_sq_eq_abs]

/-- At exactly coincident centers the measured distance is zero, the
degenerate guard registers the collision and the fallback normal (1, 0)
with penetration equal to the radius sum feeds the resolution; the
division by the distance in the regular normal is never taken. -/
theorem collide_coincident_eq (A B : Body) (rA rB : ℝ)
    (hA : A.shape = Shape.circle rA) (hB : B.shape = Shape.circle rB)
    (hs : ¬(A.static ∧ B.static)) (hpos : B.position = A.position) :
    World.collide A B =
      some ((World.resolveCollision A B ⟨1, 0⟩ (rA + rB)).1,
        (World.resolveCollision A B ⟨1, 0⟩ (rA + rB)).2,
        ⟨⟨1, 0⟩, rA + rB⟩) := by
  have hd : (Vec2.sub B.position A.position).length = 0 := by
    rw [hpos]
    simp [Vec2.length_eq_zero_iff, Vec2.sub]
  unfold World.collide
  rw [if_neg hs, hA, hB]
  dsimp only
  rw [if_pos (Or.inl hd), if_pos hd, hd, sub_zero]

/-- C7: two circle bodies whose centers are exactly coincident, not both
static, register a collision resolved with the fallback normal (1, 0) and
penetration equal to the radius sum; the guarded branch never divides by
the zero distance, and in this exact-arithmetic model every resulting
coordinate is a well-defined real number, so no NaN can arise. -/
theorem coincident_centers_fallback (A B : Body) (rA rB : ℝ)
    (hA : A.shape = Shape.circle rA) (hB : B.shape = Shape.circle rB)
    (hs : ¬(A.static ∧ B.static)) (hpos : B.position = A.position) :
    World.collide A B =
      some ((World.resolveCollision A B ⟨1, 0⟩ (rA + rB)).1,
        (World.resolveCollision A B ⟨1, 0⟩ (rA + rB)).2,
        ⟨⟨1, 0⟩, rA + rB⟩) :=
  collide_coincident_eq A B rA rB hA hB hs hpos

/-- concrete bodies for the C7 witness, placed at identical coordinates. -/
def bodyC7A : Body := mkCircleBody 19 0 0 0 0 1 1 0.9 1 false

/-- second concrete body for the C7 witness, at the same point. -/
def bodyC7B : Body := mkCircleBody 20 0 0 0 0 1 1 0.9 1 false

theorem coincident_centers_fallback_witness :
    bodyC7A.shape = Shape.circle 1 ∧ bodyC7B.shape = Shape.circle 1 ∧
    ¬(bodyC7A.static ∧ bodyC7B.static) ∧
    bodyC7B.position = bodyC7A.position ∧
    World.collide bodyC7A bodyC7B =
      some ((World.resolveCollision bodyC7A bodyC7B ⟨1, 0⟩ (1 + 1)).1,
        (World.resolveCollision bodyC7A bodyC7B ⟨1, 0⟩ (1 + 1)).2,
        ⟨⟨1, 0⟩, 1 + 1⟩) :=
  ⟨rfl, rfl, by simp [bodyC7A, bodyC7B, mkCircleBody], rfl,
    coincident_centers_fallback bodyC7A bodyC7B 1 1 rfl rfl
      (by simp [bodyC7A, bodyC7B, mkCircleBody]) rfl⟩

/-- C6: resolving a registered collision never decreases the recomputed
distance between the two circle centers: the partial positional
correction never increases overlap. -/
theorem resolution_never_increases_overlap (A B A2 B2 : Body)
    (ev : CollisionEvent) (hc : World.collide A B = some (A2, B2, ev)) :
    (Vec2.sub B.position A.position).length ≤
      (Vec2.sub B2.position A2.position).length := by
  unfold World.collide at hc
  by_cases hs : A.static ∧ B.static
  · rw [if_pos hs] at hc
    exact absurd hc (by simp)
  rw [if_neg hs] at hc
  cases hSA : A.shape with
  | other =>
    rw [hSA] at hc
    cases hSB : B.shape <;> rw [hSB] at hc <;> exact absurd hc (by simp)
  | circle rA =>
  rw [hSA] at hc
  cases hSB : B.shape with
  | other =>
    rw [hSB] at hc
    exact absurd hc (by simp)
  | circle rB =>
  rw [hSB] at hc
  dsimp only at hc
  by_cases hcond : (Vec2.sub B.position A.position).length = 0 ∨
      (Vec2.sub B.position A.position).length < rA + rB
  swap
  · rw [if_neg hcond] at hc
    exact absurd hc (by simp)
  rw [if_pos hcond] at hc
  rw [Option.some_inj] at hc
  have hA2 := congrArg (fun t : Body × Body × CollisionEvent => t.1) hc
  have hB2 := congrArg (fun t : Body × Body × CollisionEvent => t.2.1) hc
  dsimp only at hA2 hB2
  by_cases hd : (Vec2.sub B.position A.position).length = 0
  · rw [hd]
    exact Vec2.length_nonneg _
  · have hlt : (Vec2.sub B.position A.position).length < rA + rB :=
      hcond.resolve_left hd
    have hd0 : 0 < (Vec2.sub B.position A.position).length :=
      lt_of_le_of_ne (Vec2.length_nonneg _) (Ne.symm hd)
    have hpen : 0 < rA + rB - (Vec2.sub B.position A.position).length := by
      linarith
    rw [if_neg hd] at hA2 hB2
    rw [← hA2, ← hB2]
    rcases resolveCollision_diff A B
        ((Vec2.sub B.position A.position).scale
          (1 / (Vec2.sub B.position A.position).length))
        (rA + rB - (Vec2.sub B.position A.position).length) with hq | hq
    · rw [hq]
    · rw [hq]
      have hk : ((Vec2.sub B.position A.position).add
          (((Vec2.sub B.position A.position).scale
            (1 / (Vec2.sub B.position A.position).length)).scale
            (0.2 * (rA + rB - (Vec2.sub B.position A.position).length)))) =
          (Vec2.sub B.position A.position).scale
            (1 + (1 / (Vec2.sub B.position A.position).length) *
              (0.2 * (rA + rB - (Vec2.sub B.position A.position).length))) := by
        ext <;> simp only [Vec2.add, Vec2.scale] <;> ring
      rw [hk, Vec2.length_scale]
      have hk1 : (1 : ℝ) ≤ 1 + (1 / (Vec2.sub B.position A.position).length) *
          (0.2 * (rA + rB - (Vec2.sub B.position A.position).length)) := by
        have hpos : 0 ≤ (1 / (Vec2.sub B.position A.position).length) *
            (0.2 * (rA + rB - (Vec2.sub B.position A.position).length)) := by
          positivity
        linarith
      calc (Vec2.sub B.position A.position).length
          = 1 * (Vec2.sub B.position A.position).length := (one_mul _).symm
        _ ≤ |1 + (1 / (Vec2.sub B.position A.position).length) *
              (0.2 * (rA + rB - (Vec2.sub B.position A.position).length))| *
              (Vec2.sub B.position A.position).length := by
            apply mul_le_mul_of_nonneg_right _ (Vec2.length_nonneg _)
            calc (1 : ℝ) ≤ 1 + (1 / (Vec2.sub B.position A.position).length) *
                  (0.2 * (rA + rB - (Vec2.sub B.position A.position).length)) := hk1
              _ ≤ |1 + (1 / (Vec2.sub B.position A.position).length) *
                  (0.2 * (rA + rB - (Vec2.sub B.position A.position).length))| :=
                le_abs_self _

/-- concrete coincident bodies for the C6 witness. -/
def bodyC6A : Body := mkCircleBody 21 0 0 0 0 1 1 0.9 1 false

/-- second concrete body for the C6 witness, at the same point. -/
def bodyC6B : Body := mkCircleBody 22 0 0 0 0 1 1 0.9 1 false

theorem resolution_never_increases_overlap_witness :
    World.collide bodyC6A bodyC6B =
      some ((World.resolveCollision bodyC6A bodyC6B ⟨1, 0⟩ (1 + 1)).1,
        (World.resolveCollision bodyC6A bodyC6B ⟨1, 0⟩ (1 + 1)).2,
        ⟨⟨1, 0⟩, 1 + 1⟩) ∧
    (Vec2.sub bodyC6B.position bodyC6A.position).length ≤
      (Vec2.sub
        (World.resolveCollision bodyC6A bodyC6B ⟨1, 0⟩ (1 + 1)).2.position
        (World.resolveCollision bodyC6A bodyC6B ⟨1, 0⟩ (1 + 1)).1.position).length := by
  have hc := collide_coincident_eq bodyC6A bodyC6B 1 1 rfl rfl
    (by simp [bodyC6A, bodyC6B, mkCircleBody]) rfl
  exact ⟨hc, resolution_never_increases_overlap bodyC6A bodyC6B _ _ _ hc⟩

/-- Every pair enumerated by the cached-range pair loop lies inside the
cached range. -/
theorem World.pairList_mem_lt (len : ℕ) (q : ℕ × ℕ)
    (hq : q ∈ World.pairList len) : q.1 < len ∧ q.2 < len := by
  unfold World.pairList at hq
  simp only [List.mem_bind, List.mem_map] at hq
  obtain ⟨i, hi, j, hj, rfl⟩ := hq
  exact ⟨List.mem_range.mp hi, List.mem_range.mp (List.mem_of_mem_drop hj)⟩

theorem World.collideAt_eq_none (h : Handler) (q : ℕ × ℕ) (bs : List Body)
    (hcol : World.collide (bs.getD q.1 default) (bs.getD q.2 default) = none) :
    World.collideAt h q bs = bs := by
  unfold World.collideAt
  rw [hcol]

theorem World.collideAt_eq_some (h : Handler) (q : ℕ × ℕ) (bs : List Body)
    (r : Body × Body × CollisionEvent)
    (hcol : World.collide (bs.getD q.1 default) (bs.getD q.2 default) = some r) :
    World.collideAt h q bs = ((bs.set q.1 r.1).set q.2 r.2.1) ++ h r := by
  unfold World.collideAt
  rw [hcol]

theorem World.stepAppends_cons_none (h : Handler) (q : ℕ × ℕ)
    (L : List (ℕ × ℕ)) (bs : List Body)
    (hcol : World.collide (bs.getD q.1 default) (bs.getD q.2 default) = none) :
    World.stepAppends h (q :: L) bs = World.stepAppends h L bs := by
  simp only [World.stepAppends]
  rw [hcol]

theorem World.stepAppends_cons_some (h : Handler) (q : ℕ × ℕ)
    (L : List (ℕ × ℕ)) (bs : List Body) (r : Body × Body × CollisionEvent)
    (hcol : World.collide (bs.getD q.1 default) (bs.getD q.2 default) = some r) :
    World.stepAppends h (q :: L) bs =
      h r ++ World.stepAppends h L ((bs.set q.1 r.1).set q.2 r.2.1) := by
  simp only [World.stepAppends]
  rw [hcol]

theorem World.collideAt_noHandler_length (q : ℕ × ℕ) (bs : List Body) :
    (World.collideAt World.noHandler q bs).length = bs.length := by
  cases hcol : World.collide (bs.getD q.1 default) (bs.getD q.2 default) with
  | none => rw [World.collideAt_eq_none _ _ _ hcol]
  | some r =>
    rw [World.collideAt_eq_some _ _ _ _ hcol]
    simp [World.noHandler, List.length_set]

theorem World.foldl_collideAt_noHandler_length (L : List (ℕ × ℕ)) :
    ∀ bs : List Body,
      (L.foldl (fun s q => World.collideAt World.noHandler q s) bs).length =
        bs.length := by
  induction L with
  | nil => intro bs; rfl
  | cons q L ih =>
    intro bs
    rw [List.foldl_cons, ih, World.collideAt_noHandler_length]

/-- Decomposition of the collision phase run on a cached prefix followed
by extra bodies: pairs inside the cached range evolve the prefix exactly
as the handler-free run does, while the extra bodies and all bodies
appended by the handler accumulate untouched behind the prefix. -/
theorem World.foldl_collideAt_append (h : Handler) (L : List (ℕ × ℕ)) :
    ∀ (p t : List Body), (∀ q ∈ L, q.1 < p.length ∧ q.2 < p.length) →
      L.foldl (fun s q => World.collideAt h q s) (p ++ t) =
        L.foldl (fun s q => World.collideAt World.noHandler q s) p ++
          (t ++ World.stepAppends h L p) := by
  induction L with
  | nil =>
    intro p t _
    simp [World.stepAppends]
  | cons q L ih =>
    intro p t hb
    obtain ⟨h1, h2⟩ := hb q (List.mem_cons_self q L)
    simp only [List.foldl_cons]
    have hgd1 : (p ++ t).getD q.1 default = p.getD q.1 default :=
      List.getD_append _ _ _ _ h1
    have hgd2 : (p ++ t).getD q.2 default = p.getD q.2 default :=
      List.getD_append _ _ _ _ h2
    cases hcol : World.collide (p.getD q.1 default) (p.getD q.2 default) with
    | none =>
      rw [World.collideAt_eq_none h q (p ++ t) (by rw [hgd1, hgd2, hcol]),
        World.collideAt_eq_none World.noHandler q p hcol,
        World.stepAppends_cons_none h q L p hcol]
      exact ih p t fun r hr => hb r (List.mem_cons_of_mem q hr)
    | some r =>
      rw [World.collideAt_eq_some h q (p ++ t) r (by rw [hgd1, hgd2, hcol]),
        World.collideAt_eq_some World.noHandler q p r hcol,
        World.stepAppends_cons_some h q L p r hcol]
      have hset : (((p ++ t).set q.1 r.1).set q.2 r.2.1) =
          ((p.set q.1 r.1).set q.2 r.2.1) ++ t := by
        rw [List.set_append_left _ _ h1,
          List.set_append_left _ _ (by simpa [List.length_set] using h2)]
      rw [hset, List.append_assoc]
      have hlen : ∀ x ∈ L, x.1 < ((p.set q.1 r.1).set q.2 r.2.1).length ∧
          x.2 < ((p.set q.1 r.1).set q.2 r.2.1).length := by
        intro x hx
        have := hb x (List.mem_cons_of_mem q hx)
        simpa [List.length_set] using this
      rw [ih ((p.set q.1 r.1).set q.2 r.2.1) (t ++ h r) hlen]
      simp [World.noHandler, List.append_assoc]

/-- C10: step fixes the set of participating bodies at entry by caching
the body count: the first len entries of the result are exactly the
handler-free simulation of the bodies present at entry (integration, then
ascending-index pair checks over the cached range), and every body a
collision notification appends arrives verbatim behind them, neither
integrated nor collision-checked until the next step. -/
theorem step_fixes_participants (h : Handler) (dt : ℝ) (bodies : List Body) :
    World.step h dt bodies =
      World.step World.noHandler dt bodies ++
        World.stepAppends h (World.pairList bodies.length)
          (bodies.map (fun b => b.integrate dt)) ∧
    (World.step World.noHandler dt bodies).length = bodies.length := by
  constructor
  · unfold World.step
    dsimp only
    have hbnd : ∀ q ∈ World.pairList bodies.length,
        q.1 < (bodies.map (fun b => b.integrate dt)).length ∧
        q.2 < (bodies.map (fun b => b.integrate dt)).length := by
      intro q hq
      have hlt := World.pairList_mem_lt bodies.length q hq
      simpa [List.length_map] using hlt
    have hmain := World.foldl_collideAt_append h (World.pairList bodies.length)
      (bodies.map (fun b => b.integrate dt)) [] hbnd
    simpa using hmain
  · unfold World.step
    dsimp only
    rw [World.foldl_collideAt_noHandler_length]
    simp
